import Mathlib

/-!
Verification of the motif-sdk validation and content-verification utilities.

The definitions below are a shallow embedding of the TypeScript source:

* `src/utils.ts` — `constructBidShares`, `validateBidShares`, `constructBid`,
  `validateBytes32`, `validateURI`, `sha256FromBuffer`, `sha256FromHexString`,
  `isURIHashVerified`, `isItemDataVerified`, `isLandDataVerified`;
* `src/MotifItem.ts` — the `MotifItem` wrapper class (read-only gating,
  `isValidBid`).

JavaScript numbers are embedded as rationals (`ℚ`): every counterexample
below uses dyadic rationals that are exactly representable as IEEE-754
doubles, so the rational computation coincides with the JavaScript one.
`BigNumber` values are embedded as `ℤ`.  Fallible code returns
`Except String`, mirroring thrown `Error` / rejected-promise messages.
External collaborators (the `ethers` byte helpers, the `sjcl` hash codecs,
JS `Number.prototype.toFixed`) are embedded from their documented,
deterministic semantics; network fetches and contract calls are passed in
as explicit oracle arguments.
-/

/-! ## Fixed-point decimals (`Decimal.ts`, `DecimalValue`) -/

/-- An 18-decimal fixed-point value: `{ value: BigNumber }` from `types.ts`. -/
structure DecimalValue where
  value : ℤ
deriving DecidableEq, Repr

/-- JavaScript `parseFloat(x.toFixed(4))` embedded on exact rationals.
ECMA-262 `Number.prototype.toFixed(4)` separates the sign, then picks the
integer `n` minimizing `|n / 10^4 - |x||`, choosing the larger `n` on ties
(round half away from zero); `parseFloat` reads the ≤4-decimal string back. -/
def jsToFixed4 (q : ℚ) : ℚ :=
  if q < 0 then -((⌊(-q) * 10 ^ 4 + 1 / 2⌋ : ℚ) / 10 ^ 4)
  else (⌊q * 10 ^ 4 + 1 / 2⌋ : ℚ) / 10 ^ 4

/-- Modelled from the spec: `Decimal.ts` is exported by the package but its
source is not in the dump.  Per the spec (§3, §4.1 `makeDecimal`), it scales
a non-negative decimal number by `10^18` into an integer-valued fixed-point
number and fails with `InvalidNumber` if the input is negative or not
representable in 18 decimal places. -/
def Decimal.new (q : ℚ) : Except String DecimalValue :=
  if q < 0 then .error "Decimal.new: value must be non-negative"
  else if (q * 10 ^ 18).den = 1 then .ok ⟨(q * 10 ^ 18).num⟩
  else .error "Decimal.new: value has too many decimal places"

/-- The conversion used by `constructBidShares` and `constructBid`:
`Decimal.new(parseFloat(x.toFixed(4)))` (`utils.ts` lines 132-134, 199). -/
def makeDecimal (q : ℚ) : Except String DecimalValue :=
  Decimal.new (jsToFixed4 q)

/-- The message thrown by `validateBidShares` (`tiny-invariant` prepends
"Invariant failed: " to the interpolated template). -/
def bidSharesErrMsg (actual expected : ℤ) : String :=
  "Invariant failed: The BidShares sum to " ++ toString actual ++
    ", but they must sum to " ++ toString expected

/-- `validateBidShares` from `utils.ts` lines 145-160: compares the
scaled-integer sum against `Decimal.new(100).value = 100 * 10^18` by
(canonical) decimal-string equality, which on `BigNumber` coincides with
numeric equality. -/
def validateBidShares (creator owner prevOwner : DecimalValue) :
    Except String Unit :=
  let decimal100 : ℤ := 100 * 10 ^ 18
  let sum : ℤ := creator.value + owner.value + prevOwner.value
  if sum = decimal100 then .ok ()
  else .error (bidSharesErrMsg sum decimal100)

/-- `BidShares` from `types.ts`. -/
structure BidShares where
  creator : DecimalValue
  owner : DecimalValue
  prevOwner : DecimalValue
deriving DecidableEq, Repr

/-- `constructBidShares` from `utils.ts` lines 127-143: converts each share
with `makeDecimal`, then validates; a thrown error propagates. -/
def constructBidShares (creator owner prevOwner : ℚ) :
    Except String BidShares :=
  match makeDecimal creator with
  | .error e => .error e
  | .ok decimalCreator =>
    match makeDecimal owner with
    | .error e => .error e
    | .ok decimalOwner =>
      match makeDecimal prevOwner with
      | .error e => .error e
      | .ok decimalPrevOwner =>
        match validateBidShares decimalCreator decimalOwner decimalPrevOwner with
        | .error e => .error e
        | .ok _ => .ok ⟨decimalCreator, decimalOwner, decimalPrevOwner⟩

/-- Modelled from the spec: the conversion behaviour C3 claims — "reduces the
input to 4 fractional decimal digits by truncation, discarding digits beyond
the fourth decimal place" (spec §9); truncation toward zero on the
non-negative share domain. -/
def specTruncate4 (q : ℚ) : ℚ :=
  (⌊q * 10 ^ 4⌋ : ℚ) / 10 ^ 4

/-! ## URI validation (`utils.ts` `validateURI`) -/

/-- Anchored literal matcher for the regular expression `^https:\\/\\/(.*)`
used by `validateURI` (`utils.ts` line 227): the group `(.*)` always
matches, so the test reduces to matching the literal `https://` at the
start of the string. -/
def litMatch : List Char → List Char → Bool
  | [], _ => true
  | _ :: _, [] => false
  | p :: ps, c :: cs => p == c && litMatch ps cs

/-- `validateURI` from `utils.ts` lines 226-230 (`tiny-invariant` prepends
"Invariant failed: " to the thrown message). -/
def validateURI (uri : String) : Except String Unit :=
  if litMatch "https://".data uri.data then .ok ()
  else .error ("Invariant failed: " ++ uri ++ " must begin with `https://`")

/-! ## Bytes and hex (`@ethersproject/bytes` helpers, `BytesLike`) -/

/-- A byte. -/
abbrev Byte := Fin 256

/-- Lower-case hex digit for a nibble value (junk `'0'` above 15, never
reached from byte arithmetic). -/
def hexDigitChar (n : ℕ) : Char :=
  match n with
  | 0 => '0' | 1 => '1' | 2 => '2' | 3 => '3' | 4 => '4'
  | 5 => '5' | 6 => '6' | 7 => '7' | 8 => '8' | 9 => '9'
  | 10 => 'a' | 11 => 'b' | 12 => 'c' | 13 => 'd' | 14 => 'e' | 15 => 'f'
  | _ => '0'

/-- Two lower-case hex characters for one byte (as `Buffer.toString("hex")`
and `ethers.hexlify` produce). -/
def byteToHexChars (b : Byte) : List Char :=
  [hexDigitChar (b.val / 16), hexDigitChar (b.val % 16)]

/-- Lower-case hex encoding of a byte list, without a `0x` marker. -/
def bytesToHexChars (bs : List Byte) : List Char :=
  bs.flatMap byteToHexChars

/-- `ethers.hexlify` applied to a raw byte array: `0x` plus two lower-case
hex characters per byte. -/
def hexlifyBytes (bs : List Byte) : String :=
  String.mk ('0' :: 'x' :: bytesToHexChars bs)

/-- A character of the class `[0-9A-Fa-f]`. -/
def isHexDigit (c : Char) : Bool :=
  ('0' ≤ c && c ≤ '9') || ('a' ≤ c && c ≤ 'f') || ('A' ≤ c && c ≤ 'F')

/-- `ethers.isHexString` without a length argument: the regular expression
`^0x[0-9A-Fa-f]*$`. -/
def isHexString (s : String) : Bool :=
  match s.data with
  | '0' :: 'x' :: rest => rest.all isHexDigit
  | _ => false

/-- `ethers.hexDataLength` on a string: `null` unless the string is valid
hex of even total length, else `(length - 2) / 2` bytes. -/
def hexDataLength (s : String) : Option ℕ :=
  if isHexString s && s.data.length % 2 == 0 then
    some ((s.data.length - 2) / 2)
  else none

/-- `BytesLike` from `@ethersproject/bytes`: a hex string or a raw byte
array. -/
inductive BytesLike where
  | hex (s : String)
  | bytes (bs : List Byte)
deriving DecidableEq

/-- ASCII lower-casing of one character, the effect of JavaScript
`toLowerCase` on the ASCII-only strings `hexlify` lower-cases (it is only
reached on strings that passed `isHexString`). -/
def asciiToLower (c : Char) : Char :=
  if 'A' ≤ c && c ≤ 'Z' then Char.ofNat (c.toNat + 32) else c

/-- `toLowerCase` at the character-list level. -/
def toLowerStr (s : String) : String :=
  String.mk (s.data.map asciiToLower)

/-- `ethers.hexlify` on a `BytesLike` (no padding options): a byte array
is hex-encoded; a string must already be valid hex of even length and is
lower-cased. -/
def hexlify : BytesLike → Except String String
  | .bytes bs => .ok (hexlifyBytes bs)
  | .hex s =>
    if isHexString s then
      if s.data.length % 2 == 1 then .error "hex data is odd-length"
      else .ok (toLowerStr s)
    else .error "invalid hexlify value"

/-- `validateBytes32` from `utils.ts` lines 210-224: a string must be a
`0x`-prefixed hex string of exactly 32 data bytes; any other value is
hexlified and must measure exactly 32 bytes. -/
def validateBytes32 : BytesLike → Except String Unit
  | .hex s =>
    if isHexString s && hexDataLength s == some 32 then .ok ()
    else .error ("Invariant failed: " ++ s ++
      " is not a 0x prefixed 32 bytes hex string")
  | .bytes bs =>
    if hexDataLength (hexlifyBytes bs) == some 32 then .ok ()
    else .error "Invariant failed: value is not a length 32 byte array"

/-! ## sjcl hex codec and SHA-256 (`sha256FromBuffer`, `sha256FromHexString`) -/

/-- A hex nibble (4 bits): the granularity of `sjcl.codec.hex`. -/
abbrev Nibble := Fin 16

/-- JavaScript whitespace characters (`\\s`) that can occur in hex input;
`sjcl.codec.hex.toBits` removes them. -/
def isJsWhitespace (c : Char) : Bool :=
  c == ' ' || c == '\t' || c == '\n' || c == '\r' ||
    c == '\x0b' || c == '\x0c' || c == '\xa0'

/-- The `str.replace(/\\s|0x/g, "")` preprocessing of
`sjcl.codec.hex.toBits`: a left-to-right scan removing whitespace and
occurrences of `0x`. -/
def sjclStrip : List Char → List Char
  | [] => []
  | [c] => if isJsWhitespace c then [] else [c]
  | c1 :: c2 :: rest =>
    if isJsWhitespace c1 then sjclStrip (c2 :: rest)
    else if c1 == '0' && c2 == 'x' then sjclStrip rest
    else c1 :: sjclStrip (c2 :: rest)

/-- Value of one hex character (junk `0` for non-hex characters, which the
call sites exclude). -/
def hexCharVal (c : Char) : Nibble :=
  match c with
  | '0' => 0 | '1' => 1 | '2' => 2 | '3' => 3 | '4' => 4
  | '5' => 5 | '6' => 6 | '7' => 7 | '8' => 8 | '9' => 9
  | 'a' => 10 | 'b' => 11 | 'c' => 12 | 'd' => 13 | 'e' => 14 | 'f' => 15
  | 'A' => 10 | 'B' => 11 | 'C' => 12 | 'D' => 13 | 'E' => 14 | 'F' => 15
  | _ => 0

/-- `sjcl.codec.hex.toBits`: strip whitespace and `0x`, then read the hex
digits as a bit array, 4 bits per digit. -/
def hexToBits (s : String) : List Nibble :=
  (sjclStrip s.data).map hexCharVal

/-- 32-bit right rotation on `ℕ` (values kept below `2^32`). -/
def rotr (n x : ℕ) : ℕ :=
  ((x >>> n) ||| (x <<< (32 - n))) % 2 ^ 32

/-- SHA-256 Σ₀. -/
def bigSigma0 (x : ℕ) : ℕ := rotr 2 x ^^^ rotr 13 x ^^^ rotr 22 x

/-- SHA-256 Σ₁. -/
def bigSigma1 (x : ℕ) : ℕ := rotr 6 x ^^^ rotr 11 x ^^^ rotr 25 x

/-- SHA-256 σ₀. -/
def smallSigma0 (x : ℕ) : ℕ := rotr 7 x ^^^ rotr 18 x ^^^ (x >>> 3)

/-- SHA-256 σ₁. -/
def smallSigma1 (x : ℕ) : ℕ := rotr 17 x ^^^ rotr 19 x ^^^ (x >>> 10)

/-- SHA-256 `Ch`, with 32-bit complement written as xor with `2^32 - 1`. -/
def chF (x y z : ℕ) : ℕ := (x &&& y) ^^^ ((x ^^^ (2 ^ 32 - 1)) &&& z)

/-- SHA-256 `Maj`. -/
def majF (x y z : ℕ) : ℕ := (x &&& y) ^^^ (x &&& z) ^^^ (y &&& z)

/-- The eight 32-bit working registers of SHA-256. -/
structure Sha256State where
  a : ℕ
  b : ℕ
  c : ℕ
  d : ℕ
  e : ℕ
  f : ℕ
  g : ℕ
  h : ℕ
deriving DecidableEq, Repr

/-- SHA-256 initial hash value (FIPS 180-4 §5.3.3, written in decimal). -/
def sha256Init : Sha256State :=
  ⟨1779033703, 3144134277, 1013904242, 2773480762,
   1359893119, 2600822924, 528734635, 1541459225⟩

/-- SHA-256 round constants (FIPS 180-4 §4.2.2, written in decimal). -/
def sha256K : List ℕ :=
  [1116352408, 1899447441, 3049323471, 3921009573,
   961987163, 1508970993, 2453635748, 2870763221,
   3624381080, 310598401, 607225278, 1426881987,
   1925078388, 2162078206, 2614888103, 3248222580,
   3835390401, 4022224774, 264347078, 604807628,
   770255983, 1249150122, 1555081692, 1996064986,
   2554220882, 2821834349, 2952996808, 3210313671,
   3336571891, 3584528711, 113926993, 338241895,
   666307205, 773529912, 1294757372, 1396182291,
   1695183700, 1986661051, 2177026350, 2456956037,
   2730485921, 2820302411, 3259730800, 3345764771,
   3516065817, 3600352804, 4094571909, 275423344,
   430227734, 506948616, 659060556, 883997877,
   958139571, 1322822218, 1537002063, 1747873779,
   1955562222, 2024104815, 2227730452, 2361852424,
   2428436474, 2756734187, 3204031479, 3329325298]

/-- Next word of the SHA-256 message schedule, from the reversed list of
words produced so far. -/
def nextScheduleWord (rev : List ℕ) : ℕ :=
  (rev.getD 15 0 + smallSigma0 (rev.getD 14 0) + rev.getD 6 0 +
    smallSigma1 (rev.getD 1 0)) % 2 ^ 32

/-- Extend the reversed schedule by `n` words, then un-reverse. -/
def extendSchedule : List ℕ → ℕ → List ℕ
  | rev, 0 => rev.reverse
  | rev, n + 1 => extendSchedule (nextScheduleWord rev :: rev) n

/-- The 64-word message schedule of one 16-word block. -/
def messageSchedule (block : List ℕ) : List ℕ :=
  extendSchedule block.reverse 48

/-- One SHA-256 round with a `(k, w)` pair. -/
def sha256Round (st : Sha256State) (kw : ℕ × ℕ) : Sha256State :=
  let t1 := (st.h + bigSigma1 st.e + chF st.e st.f st.g + kw.1 + kw.2) % 2 ^ 32
  let t2 := (bigSigma0 st.a + majF st.a st.b st.c) % 2 ^ 32
  ⟨(t1 + t2) % 2 ^ 32, st.a, st.b, st.c, (st.d + t1) % 2 ^ 32,
    st.e, st.f, st.g⟩

/-- Compress one 16-word block into the running hash. -/
def compressBlock (H : Sha256State) (block : List ℕ) : Sha256State :=
  let st := (sha256K.zip (messageSchedule block)).foldl sha256Round H
  ⟨(H.a + st.a) % 2 ^ 32, (H.b + st.b) % 2 ^ 32, (H.c + st.c) % 2 ^ 32,
   (H.d + st.d) % 2 ^ 32, (H.e + st.e) % 2 ^ 32, (H.f + st.f) % 2 ^ 32,
   (H.g + st.g) % 2 ^ 32, (H.h + st.h) % 2 ^ 32⟩

/-- Chunking worker: `cur` is the reversed current chunk, `k` the remaining
capacity of the current chunk minus one. -/
def chunkGo {α : Type} (n : ℕ) : List α → List α → ℕ → List (List α)
  | [], [], _ => []
  | [], cur@(_ :: _), _ => [cur.reverse]
  | x :: xs, cur, 0 => (x :: cur).reverse :: chunkGo n xs [] (n - 1)
  | x :: xs, cur, k + 1 => chunkGo n xs (x :: cur) k

/-- Split a list into consecutive chunks of `n` elements. -/
def chunkBy {α : Type} (n : ℕ) (l : List α) : List (List α) :=
  match n with
  | 0 => []
  | m + 1 => chunkGo (m + 1) l [] m

/-- Big-endian 64-bit message length (in bits), as 16 nibbles. -/
def lengthNibbles (bits : ℕ) : List Nibble :=
  (List.range 16).map (fun i => ⟨(bits >>> (4 * (15 - i))) % 16, by omega⟩)

/-- SHA-256 padding at nibble granularity: append the `1` bit as the nibble
`0x8` (the message is nibble-aligned), zero nibbles, and the 64-bit bit
length, reaching a multiple of 128 nibbles (512 bits). -/
def padNibbles (msg : List Nibble) : List Nibble :=
  msg ++ (8 : Nibble) ::
    (List.replicate ((128 - ((msg.length + 17) % 128)) % 128) (0 : Nibble) ++
      lengthNibbles (4 * msg.length))

/-- Big-endian word value of (up to) 8 nibbles. -/
def wordOfNibbles (l : List Nibble) : ℕ :=
  l.foldl (fun acc d => acc * 16 + d.val) 0

/-- The eight 32-bit words of the SHA-256 digest of a nibble-aligned
message. -/
def sha256Words (msg : List Nibble) : List ℕ :=
  let ws := (chunkBy 8 (padNibbles msg)).map wordOfNibbles
  let final := (chunkBy 16 ws).foldl compressBlock sha256Init
  [final.a, final.b, final.c, final.d, final.e, final.f, final.g, final.h]

/-- Lower-case hex rendering of one 32-bit word (8 characters), as
`sjcl.codec.hex.fromBits` produces. -/
def wordToHexChars (w : ℕ) : List Char :=
  [hexDigitChar ((w >>> 28) % 16), hexDigitChar ((w >>> 24) % 16),
   hexDigitChar ((w >>> 20) % 16), hexDigitChar ((w >>> 16) % 16),
   hexDigitChar ((w >>> 12) % 16), hexDigitChar ((w >>> 8) % 16),
   hexDigitChar ((w >>> 4) % 16), hexDigitChar (w % 16)]

/-- `sjcl.codec.hex.fromBits` on the digest words. -/
def hashToHexChars (ws : List ℕ) : List Char :=
  ws.flatMap wordToHexChars

/-- `sha256FromBuffer` from `utils.ts` lines 263-267:
`sjcl.codec.hex.toBits(buffer.toString("hex"))`, hash, then `0x` plus
`sjcl.codec.hex.fromBits`. -/
def sha256FromBuffer (bs : List Byte) : String :=
  "0x" ++ String.mk (hashToHexChars (sha256Words
    (hexToBits (String.mk (bytesToHexChars bs)))))

/-- `sha256FromHexString` from `utils.ts` lines 269-277: rejects strings
that are not `0x`-prefixed hex, otherwise hashes the hex payload (the
sjcl hex codec strips the `0x` marker itself). -/
def sha256FromHexString (data : String) : Except String String :=
  if isHexString data then
    .ok ("0x" ++ String.mk (hashToHexChars (sha256Words (hexToBits data))))
  else .error (data ++ " is not valid 0x prefixed hex")

/-- A lower-case hex character (digit or `a`-`f`), the class
`sjcl.codec.hex.fromBits` emits. -/
def isLowerHexDigit (c : Char) : Bool :=
  ('0' ≤ c && c ≤ '9') || ('a' ≤ c && c ≤ 'f')

/-! ## Content verification (`isURIHashVerified`, `isItemDataVerified`,
`isLandDataVerified`) -/

/-- `isURIHashVerified` from `utils.ts` lines 508-527, with the network
fetch passed as its settled outcome: `fetchResult` stands for
`axios.get(uri, { timeout, responseType: "arraybuffer" })` — the response
body bytes on a 2xx response, or an error message when the request fails,
returns a non-2xx status, or times out.  Every error thrown inside the
`try` block (insecure URI, fetch rejection, unhexlifiable expected hash)
is caught and re-raised as a rejection carrying the error message; a clean
digest comparison returns a boolean. -/
def isURIHashVerified (uri : String) (expectedHash : BytesLike)
    (fetchResult : Except String (List Byte)) : Except String Bool :=
  match validateURI uri with
  | .error e => .error e
  | .ok _ =>
    match fetchResult with
    | .error e => .error e
    | .ok data =>
      match hexlify expectedHash with
      | .error e => .error e
      | .ok normalizedExpectedHash =>
        .ok (sha256FromBuffer data == normalizedExpectedHash)

/-- `ItemData` from `types.ts` (also the shape of `AvatarData`). -/
structure ItemData where
  tokenURI : String
  metadataURI : String
  contentHash : BytesLike
  metadataHash : BytesLike
deriving DecidableEq

/-- `LandData` from `types.ts`. -/
structure LandData where
  tokenURI : String
  metadataURI : String
  contentHash : BytesLike
  metadataHash : BytesLike
  xCoordinate : ℤ
  yCoordinate : ℤ
deriving DecidableEq

/-- `isURIHashVerified` against a fetch oracle (URI ↦ settled outcome),
recording the issued request: the network request for `uri` fires only
after `validateURI uri` passes. -/
def isURIHashVerifiedT (uri : String) (expectedHash : BytesLike)
    (fetch : String → Except String (List Byte)) :
    Except String Bool × List String :=
  match validateURI uri with
  | .error e => (.error e, [])
  | .ok _ =>
    match fetch uri with
    | .error e => (.error e, [uri])
    | .ok data =>
      match hexlify expectedHash with
      | .error e => (.error e, [uri])
      | .ok normalizedExpectedHash =>
        (.ok (sha256FromBuffer data == normalizedExpectedHash), [uri])

/-- `isItemDataVerified` from `utils.ts` lines 529-546: `await`s the
token-URI verification before starting the metadata verification, and
returns the conjunction; a rejection of the first `await` rejects the whole
call before the second fetch is ever issued.  The second component is the
list of URIs actually fetched, in order. -/
def isItemDataVerified (itemData : ItemData)
    (fetch : String → Except String (List Byte)) :
    Except String Bool × List String :=
  match isURIHashVerifiedT itemData.tokenURI itemData.contentHash fetch with
  | (.error e, t1) => (.error e, t1)
  | (.ok isTokenURIVerified, t1) =>
    match isURIHashVerifiedT itemData.metadataURI itemData.metadataHash
        fetch with
    | (.error e, t2) => (.error e, t1 ++ t2)
    | (.ok isMetadataURIVerified, t2) =>
      (.ok (isTokenURIVerified && isMetadataURIVerified), t1 ++ t2)

/-- `isLandDataVerified` from `utils.ts` lines 586-603: identical sequential
structure on a `LandData`. -/
def isLandDataVerified (landData : LandData)
    (fetch : String → Except String (List Byte)) :
    Except String Bool × List String :=
  match isURIHashVerifiedT landData.tokenURI landData.contentHash fetch with
  | (.error e, t1) => (.error e, t1)
  | (.ok isTokenURIVerified, t1) =>
    match isURIHashVerifiedT landData.metadataURI landData.metadataHash
        fetch with
    | (.error e, t2) => (.error e, t1 ++ t2)
    | (.ok isMetadataURIVerified, t2) =>
      (.ok (isTokenURIVerified && isMetadataURIVerified), t1 ++ t2)

/-- Modelled from the spec: `verifyContentRecord` (spec §4.2, §5) "issues
the two (or more) fetches for a content record without waiting for one
before starting the next, then waits for all to settle before computing the
logical AND"; both requests are issued regardless of how the first one
settles. -/
def verifyContentRecordSpec (itemData : ItemData)
    (fetch : String → Except String (List Byte)) :
    Except String Bool × List String :=
  let r1 := isURIHashVerifiedT itemData.tokenURI itemData.contentHash fetch
  let r2 := isURIHashVerifiedT itemData.metadataURI itemData.metadataHash
    fetch
  (match r1.1, r2.1 with
   | .error e, _ => .error e
   | .ok _, .error e => .error e
   | .ok b1, .ok b2 => .ok (b1 && b2), r1.2 ++ r2.2)

/-- A concrete item record for the sequencing counterexample. -/
def itemDataEx : ItemData :=
  ⟨"https://a.example/content", "https://a.example/meta",
    .bytes (List.replicate 32 0), .bytes (List.replicate 32 0)⟩

/-- A fetch oracle that times out on the content URI and serves an empty
body for every other URI. -/
def fetchEx : String → Except String (List Byte) :=
  fun uri =>
    if uri = "https://a.example/content" then
      .error "timeout of 10ms exceeded"
    else .ok []

/-- A record whose two URIs serve bodies hashing to the declared digests
(the empty body, whose SHA-256 digest is declared on both slots). -/
def itemDataOk : ItemData :=
  ⟨"https://ok.example/content", "https://ok.example/meta",
    .hex "0xe3b0c44298fc1c149afbf4c8996fb92427ae41e4649b934ca495991b7852b855",
    .hex "0xe3b0c44298fc1c149afbf4c8996fb92427ae41e4649b934ca495991b7852b855"⟩

/-- A fetch oracle serving an empty body for every URI. -/
def fetchOk : String → Except String (List Byte) :=
  fun _ => .ok []

/-! ## Bids and the MotifItem wrapper (`constructBid`, `MotifItem.ts`) -/

/-- `Ask` from `types.ts`. -/
structure Ask where
  currency : String
  amount : ℤ
deriving DecidableEq

/-- `Bid` from `types.ts`. -/
structure Bid where
  currency : String
  amount : ℤ
  bidder : String
  recipient : String
  sellOnShare : DecimalValue
deriving DecidableEq

/-- `EIP712Signature` from `types.ts`. -/
structure EIP712Signature where
  deadline : ℤ
  v : ℤ
  r : BytesLike
  s : BytesLike
deriving DecidableEq

/-- `validateAndParseAddress` from `utils.ts` lines 232-240, with the
external `ethers.getAddress` checksummer passed as the oracle `getAddr`
(checksummed address on success, failure on malformed input); the
non-checksummed case only emits a non-fatal warning. -/
def validateAndParseAddress (getAddr : String → Except String String)
    (address : String) : Except String String :=
  match getAddr address with
  | .ok checksummedAddress => .ok checksummedAddress
  | .error _ =>
    .error ("Invariant failed: " ++ address ++ " is not a valid address.")

/-- `constructBid` from `utils.ts` lines 170-208: parses the three
addresses (rewrapping failures with a field-specific message) and converts
`sellOnShare` with `Decimal.new(parseFloat(sellOnShare.toFixed(4)))` —
no upper bound on `sellOnShare` is checked here. -/
def constructBid (getAddr : String → Except String String)
    (currency : String) (amount : ℤ) (bidder recipient : String)
    (sellOnShare : ℚ) : Except String Bid :=
  match validateAndParseAddress getAddr currency with
  | .error e => .error ("Currency address is invalid: " ++ e)
  | .ok parsedCurrency =>
    match validateAndParseAddress getAddr bidder with
    | .error e => .error ("Bidder address is invalid: " ++ e)
    | .ok parsedBidder =>
      match validateAndParseAddress getAddr recipient with
      | .error e => .error ("Recipient address is invalid: " ++ e)
      | .ok parsedRecipient =>
        match makeDecimal sellOnShare with
        | .error e => .error e
        | .ok decimalSellOnShare =>
          .ok ⟨parsedCurrency, amount, parsedBidder, parsedRecipient,
            decimalSellOnShare⟩

/-- `MotifItem.isValidBid` from `MotifItem.ts` lines 582-591, with the two
contract reads passed as oracles: `isAmountValid` is the settled result of
`itemExchange.isValidBid(itemId, bid.amount)` and `currentBidShares` the
result of `fetchCurrentBidShares(itemId)`; `Decimal.new(100).value` is
`100 * 10^18` (`decimal_new_100`). -/
def MotifItem.isValidBid (isAmountValid : Bool) (currentBidShares : BidShares)
    (bid : Bid) : Bool :=
  isAmountValid &&
    decide (bid.sellOnShare.value ≤
      100 * 10 ^ 18 - currentBidShares.creator.value)

/-- The `MotifItem` wrapper state relevant here: `readOnly` is true exactly
when the constructor received a `Provider` rather than a `Signer`
(`MotifItem.ts` lines 46-50). -/
structure MotifItem where
  readOnly : Bool
deriving DecidableEq

/-- The message of `ensureNotReadOnly` (`MotifItem.ts` lines 637-643). -/
def ensureNotReadOnlyMsg : String :=
  "ensureNotReadOnly: readOnly Motif instance cannot call contract methods that require a signer."

/-- `ensureNotReadOnly` from `MotifItem.ts` lines 637-643. -/
def ensureNotReadOnly (m : MotifItem) : Except String Unit :=
  if m.readOnly then .error ensureNotReadOnlyMsg else .ok ()

/-- The contract calls a `MotifItem` method can forward (gas estimation
options elided); view calls included for the fetch methods. -/
inductive ContractCall where
  | updateTokenURI (itemId : ℤ) (tokenURI : String)
  | updateTokenMetadataURI (itemId : ℤ) (metadataURI : String)
  | mint (itemData : ItemData) (bidShares : BidShares)
  | mintMultiple (itemData : List ItemData) (bidShares : List BidShares)
  | mintWithSig (creator : String) (itemData : ItemData)
      (bidShares : BidShares) (sig : EIP712Signature)
  | setAsk (itemId : ℤ) (ask : Ask)
  | setBid (itemId : ℤ) (bid : Bid)
  | removeAsk (itemId : ℤ)
  | removeBid (itemId : ℤ)
  | acceptBid (itemId : ℤ) (bid : Bid)
  | permit (spender : String) (itemId : ℤ) (sig : EIP712Signature)
  | revokeApproval (itemId : ℤ)
  | burn (itemId : ℤ)
  | approve (toAddr : String) (itemId : ℤ)
  | setApprovalForAll (operator : String) (approved : Bool)
  | transferFrom (sender : String) (toAddr : String) (itemId : ℤ)
  | safeTransferFrom (sender : String) (toAddr : String) (itemId : ℤ)
  | tokenContentHashes (itemId : ℤ)
  | tokenMetadataHashes (itemId : ℤ)
  | tokenURI (itemId : ℤ)
  | tokenMetadataURI (itemId : ℤ)
deriving DecidableEq

/-- `MotifItem.updateContentURI` (`MotifItem.ts` lines 184-196): the
read-only check runs before URI validation; a caught error rejects before
any contract call. -/
def MotifItem.updateContentURI (m : MotifItem) (itemId : ℤ)
    (tokenURI : String) : Except String ContractCall :=
  match ensureNotReadOnly m with
  | .error e => .error e
  | .ok _ =>
    match validateURI tokenURI with
    | .error e => .error e
    | .ok _ => .ok (.updateTokenURI itemId tokenURI)

/-- `MotifItem.updateMetadataURI` (`MotifItem.ts` lines 203-215). -/
def MotifItem.updateMetadataURI (m : MotifItem) (itemId : ℤ)
    (metadataURI : String) : Except String ContractCall :=
  match ensureNotReadOnly m with
  | .error e => .error e
  | .ok _ =>
    match validateURI metadataURI with
    | .error e => .error e
    | .ok _ => .ok (.updateTokenMetadataURI itemId metadataURI)

/-- `MotifItem.mint` (`MotifItem.ts` lines 222-238). -/
def MotifItem.mint (m : MotifItem) (itemData : ItemData)
    (bidShares : BidShares) : Except String ContractCall :=
  match ensureNotReadOnly m with
  | .error e => .error e
  | .ok _ =>
    match validateURI itemData.metadataURI with
    | .error e => .error e
    | .ok _ =>
      match validateURI itemData.tokenURI with
      | .error e => .error e
      | .ok _ =>
        match validateBidShares bidShares.creator bidShares.owner
            bidShares.prevOwner with
        | .error e => .error e
        | .ok _ => .ok (.mint itemData bidShares)

/-- The per-item validation loop of `mintMultiple` (`MotifItem.ts` lines
246-254); walking past the end of `bidShares` is the JS `TypeError` of
reading a field of `undefined`. -/
def validateMintItems : List ItemData → List BidShares → Except String Unit
  | [], _ => .ok ()
  | item :: rest, bss =>
    match validateURI item.metadataURI with
    | .error e => .error e
    | .ok _ =>
      match validateURI item.tokenURI with
      | .error e => .error e
      | .ok _ =>
        match bss with
        | [] =>
          .error "TypeError: Cannot read properties of undefined (reading 'creator')"
        | bs :: bsrest =>
          match validateBidShares bs.creator bs.owner bs.prevOwner with
          | .error e => .error e
          | .ok _ => validateMintItems rest bsrest

/-- `MotifItem.mintMultiple` (`MotifItem.ts` lines 240-264). -/
def MotifItem.mintMultiple (m : MotifItem) (itemData : List ItemData)
    (bidShares : List BidShares) : Except String ContractCall :=
  match ensureNotReadOnly m with
  | .error e => .error e
  | .ok _ =>
    match validateMintItems itemData bidShares with
    | .error e => .error e
    | .ok _ => .ok (.mintMultiple itemData bidShares)

/-- `MotifItem.mintWithSig` (`MotifItem.ts` lines 273-289). -/
def MotifItem.mintWithSig (m : MotifItem) (creator : String)
    (itemData : ItemData) (bidShares : BidShares) (sig : EIP712Signature) :
    Except String ContractCall :=
  match ensureNotReadOnly m with
  | .error e => .error e
  | .ok _ =>
    match validateURI itemData.metadataURI with
    | .error e => .error e
    | .ok _ =>
      match validateURI itemData.tokenURI with
      | .error e => .error e
      | .ok _ =>
        match validateBidShares bidShares.creator bidShares.owner
            bidShares.prevOwner with
        | .error e => .error e
        | .ok _ => .ok (.mintWithSig creator itemData bidShares sig)

/-- `MotifItem.setAsk` (`MotifItem.ts` lines 296-304). -/
def MotifItem.setAsk (m : MotifItem) (itemId : ℤ) (ask : Ask) :
    Except String ContractCall :=
  match ensureNotReadOnly m with
  | .error e => .error e
  | .ok _ => .ok (.setAsk itemId ask)

/-- `MotifItem.setBid` (`MotifItem.ts` lines 311-319). -/
def MotifItem.setBid (m : MotifItem) (itemId : ℤ) (bid : Bid) :
    Except String ContractCall :=
  match ensureNotReadOnly m with
  | .error e => .error e
  | .ok _ => .ok (.setBid itemId bid)

/-- `MotifItem.removeAsk` (`MotifItem.ts` lines 325-333). -/
def MotifItem.removeAsk (m : MotifItem) (itemId : ℤ) :
    Except String ContractCall :=
  match ensureNotReadOnly m with
  | .error e => .error e
  | .ok _ => .ok (.removeAsk itemId)

/-- `MotifItem.removeBid` (`MotifItem.ts` lines 339-347). -/
def MotifItem.removeBid (m : MotifItem) (itemId : ℤ) :
    Except String ContractCall :=
  match ensureNotReadOnly m with
  | .error e => .error e
  | .ok _ => .ok (.removeBid itemId)

/-- `MotifItem.acceptBid` (`MotifItem.ts` lines 354-362). -/
def MotifItem.acceptBid (m : MotifItem) (itemId : ℤ) (bid : Bid) :
    Except String ContractCall :=
  match ensureNotReadOnly m with
  | .error e => .error e
  | .ok _ => .ok (.acceptBid itemId bid)

/-- `MotifItem.permit` (`MotifItem.ts` lines 370-382). -/
def MotifItem.permit (m : MotifItem) (spender : String) (itemId : ℤ)
    (sig : EIP712Signature) : Except String ContractCall :=
  match ensureNotReadOnly m with
  | .error e => .error e
  | .ok _ => .ok (.permit spender itemId sig)

/-- `MotifItem.revokeApproval` (`MotifItem.ts` lines 388-396). -/
def MotifItem.revokeApproval (m : MotifItem) (itemId : ℤ) :
    Except String ContractCall :=
  match ensureNotReadOnly m with
  | .error e => .error e
  | .ok _ => .ok (.revokeApproval itemId)

/-- `MotifItem.burn` (`MotifItem.ts` lines 402-410). -/
def MotifItem.burn (m : MotifItem) (itemId : ℤ) :
    Except String ContractCall :=
  match ensureNotReadOnly m with
  | .error e => .error e
  | .ok _ => .ok (.burn itemId)

/-- `MotifItem.approve` (`MotifItem.ts` lines 487-495). -/
def MotifItem.approve (m : MotifItem) (toAddr : String) (itemId : ℤ) :
    Except String ContractCall :=
  match ensureNotReadOnly m with
  | .error e => .error e
  | .ok _ => .ok (.approve toAddr itemId)

/-- `MotifItem.setApprovalForAll` (`MotifItem.ts` lines 502-513). -/
def MotifItem.setApprovalForAll (m : MotifItem) (operator : String)
    (approved : Bool) : Except String ContractCall :=
  match ensureNotReadOnly m with
  | .error e => .error e
  | .ok _ => .ok (.setApprovalForAll operator approved)

/-- `MotifItem.transferFrom` (`MotifItem.ts` lines 521-533). -/
def MotifItem.transferFrom (m : MotifItem) (sender toAddr : String)
    (itemId : ℤ) : Except String ContractCall :=
  match ensureNotReadOnly m with
  | .error e => .error e
  | .ok _ => .ok (.transferFrom sender toAddr itemId)

/-- `MotifItem.safeTransferFrom` (`MotifItem.ts` lines 541-553). -/
def MotifItem.safeTransferFrom (m : MotifItem) (sender toAddr : String)
    (itemId : ℤ) : Except String ContractCall :=
  match ensureNotReadOnly m with
  | .error e => .error e
  | .ok _ => .ok (.safeTransferFrom sender toAddr itemId)

/-- `MotifItem.fetchContentHash` (`MotifItem.ts` lines 82-84): fetch
methods forward unconditionally — no read-only check. -/
def MotifItem.fetchContentHash (_m : MotifItem) (itemId : ℤ) :
    Except String ContractCall :=
  .ok (.tokenContentHashes itemId)

/-- `MotifItem.fetchMetadataHash` (`MotifItem.ts` lines 90-92). -/
def MotifItem.fetchMetadataHash (_m : MotifItem) (itemId : ℤ) :
    Except String ContractCall :=
  .ok (.tokenMetadataHashes itemId)

/-- `MotifItem.fetchContentURI` (`MotifItem.ts` lines 106-108). -/
def MotifItem.fetchContentURI (_m : MotifItem) (itemId : ℤ) :
    Except String ContractCall :=
  .ok (.tokenURI itemId)

/-- `MotifItem.fetchMetadataURI` (`MotifItem.ts` lines 113-115). -/
def MotifItem.fetchMetadataURI (_m : MotifItem) (itemId : ℤ) :
    Except String ContractCall :=
  .ok (.tokenMetadataURI itemId)

deriving instance DecidableEq for Except

/-! ## Theorems -/

/-- The `Decimal.new(100)` constant used by `validateBidShares` and
`MotifItem.isValidBid` indeed scales to `100 * 10^18`. -/
theorem decimal_new_100 : Decimal.new 100 = .ok ⟨100 * 10 ^ 18⟩ := by
  have h : ((100 : ℚ) * 10 ^ 18) = ((100 * 10 ^ 18 : ℤ) : ℚ) := by norm_num
  rw [Decimal.new, if_neg (by norm_num), h, Rat.den_intCast, Rat.num_intCast,
    if_pos rfl]

/-- Decimal.new on `(k : ℤ)/10^4` with `0 ≤ k` scales to `k * 10^14`. -/
theorem decimal_new_int_div_ten4 (k : ℤ) (hk : 0 ≤ k) :
    Decimal.new ((k : ℚ) / 10 ^ 4) = .ok ⟨k * 10 ^ 14⟩ := by
  have hq : (0 : ℚ) ≤ (k : ℚ) / 10 ^ 4 := by positivity
  have hcast : ((k : ℚ) / 10 ^ 4) * 10 ^ 18 = ((k * 10 ^ 14 : ℤ) : ℚ) := by
    push_cast
    field_simp
    ring
  rw [Decimal.new, if_neg (not_lt.mpr hq), hcast, Rat.den_intCast,
    Rat.num_intCast, if_pos rfl]

/-- The 4-decimal rounding step: for non-negative inputs, the conversion
used by `constructBidShares`/`constructBid` produces
`⌊q * 10^4 + 1/2⌋ * 10^14` — round half up at the fourth decimal, scaled. -/
theorem makeDecimal_eq_round_half_up (q : ℚ) (hq : 0 ≤ q) :
    makeDecimal q = .ok ⟨⌊q * 10 ^ 4 + 1 / 2⌋ * 10 ^ 14⟩ := by
  have hk : (0 : ℤ) ≤ ⌊q * 10 ^ 4 + 1 / 2⌋ := by
    apply Int.floor_nonneg.mpr
    positivity
  have hfix : jsToFixed4 q = ((⌊q * 10 ^ 4 + 1 / 2⌋ : ℚ)) / 10 ^ 4 := by
    rw [jsToFixed4, if_neg (not_lt.mpr hq)]
  rw [makeDecimal, hfix, decimal_new_int_div_ten4 _ hk]

/-- A non-negative rational that is an exact multiple of `10^-4` passes
through the 4-decimal rounding unchanged and scales to `num * 10^14`. -/
theorem makeDecimal_of_den4 (q : ℚ) (hq : 0 ≤ q) (h4 : (q * 10 ^ 4).den = 1) :
    makeDecimal q = .ok ⟨(q * 10 ^ 4).num * 10 ^ 14⟩ := by
  have hnum : (((q * 10 ^ 4).num : ℚ)) = q * 10 ^ 4 :=
    (Rat.den_eq_one_iff _).mp h4
  have hfl : ⌊q * 10 ^ 4 + 1 / 2⌋ = (q * 10 ^ 4).num := by
    rw [Int.floor_eq_iff]
    constructor
    · rw [hnum]; linarith
    · rw [hnum]; linarith
  rw [makeDecimal_eq_round_half_up q hq, hfl]

/-- C1: `validateBidShares` succeeds exactly when the scaled-integer sum is
`100 * 10^18`; on any other sum it fails with the message carrying the
actual sum and the expected sum `100 * 10^18`. -/
theorem validateBidShares_ok_iff_sum_eq_100e18 (c o p : DecimalValue) :
    (validateBidShares c o p = .ok () ↔
      c.value + o.value + p.value = 100 * 10 ^ 18) ∧
    (c.value + o.value + p.value ≠ 100 * 10 ^ 18 →
      validateBidShares c o p =
        .error (bidSharesErrMsg (c.value + o.value + p.value)
          (100 * 10 ^ 18))) := by
  constructor
  · constructor
    · intro h
      by_contra hne
      norm_num at hne
      simp [validateBidShares, hne] at h
    · intro h
      simp [validateBidShares, h]
  · intro hne
    norm_num at hne
    simp [validateBidShares, hne]

/-- Witness for C1, mirroring the `mint` test: shares `10/70/10` (scaled)
sum to `90 * 10^18` and are rejected with both sums in the message. -/
theorem validateBidShares_ok_iff_sum_eq_100e18_witness :
    validateBidShares ⟨10 * 10 ^ 18⟩ ⟨70 * 10 ^ 18⟩ ⟨10 * 10 ^ 18⟩ =
      .error (bidSharesErrMsg (90 * 10 ^ 18) (100 * 10 ^ 18)) := by
  have h :=
    (validateBidShares_ok_iff_sum_eq_100e18
      ⟨10 * 10 ^ 18⟩ ⟨70 * 10 ^ 18⟩ ⟨10 * 10 ^ 18⟩).2 (by norm_num)
  norm_num at h ⊢
  exact h

/-- Multiples of `10^-4`, phrased through the denominator of `q * 10^4`. -/
theorem den4_of_mul_eq_int (q : ℚ) (k : ℤ) (h : q * 10 ^ 4 = (k : ℚ)) :
    (q * 10 ^ 4).den = 1 := by
  rw [h]
  exact Rat.den_intCast k

/-- C2 counterexample: `a = b = 2^-14`, `c = 100 - 2^-13` are non-negative
reals (each exactly representable as an IEEE-754 double) summing to exactly
100, yet 4-decimal rounding lifts the rounded sum to `100.0001`, so the
`constructBidShares` pipeline rejects them with `BidShareSumInvalid`. -/
theorem constructBidShares_exact_sum100_rejected :
    ((0 : ℚ) ≤ 1 / 16384 ∧ (0 : ℚ) ≤ 100 - 1 / 8192 ∧
      (1 : ℚ) / 16384 + 1 / 16384 + (100 - 1 / 8192) = 100) ∧
    constructBidShares (1 / 16384) (1 / 16384) (100 - 1 / 8192) =
      .error (bidSharesErrMsg (1000001 * 10 ^ 14) (100 * 10 ^ 18)) := by
  refine ⟨⟨by norm_num, by norm_num, by norm_num⟩, ?_⟩
  have h1 : makeDecimal (1 / 16384) = .ok ⟨1 * 10 ^ 14⟩ := by
    rw [makeDecimal_eq_round_half_up _ (by norm_num)]
    norm_num
  have h3 : makeDecimal (100 - 1 / 8192) = .ok ⟨999999 * 10 ^ 14⟩ := by
    rw [makeDecimal_eq_round_half_up _ (by norm_num)]
    norm_num
  have hv : validateBidShares ⟨1 * 10 ^ 14⟩ ⟨1 * 10 ^ 14⟩ ⟨999999 * 10 ^ 14⟩ =
      .error (bidSharesErrMsg (1000001 * 10 ^ 14) (100 * 10 ^ 18)) := by
    norm_num [validateBidShares]
  rw [constructBidShares, h1, h3]
  norm_num at hv ⊢
  rw [hv]

/-- C2 (amended): if the three non-negative shares are themselves exact
multiples of `10^-4` (the granularity the pipeline keeps) and sum to 100,
the `constructBidShares` pipeline succeeds. -/
theorem constructBidShares_ok_of_4dp_sum100 (a b c : ℚ)
    (ha : 0 ≤ a) (hb : 0 ≤ b) (hc : 0 ≤ c)
    (ha4 : (a * 10 ^ 4).den = 1) (hb4 : (b * 10 ^ 4).den = 1)
    (hc4 : (c * 10 ^ 4).den = 1) (hsum : a + b + c = 100) :
    (constructBidShares a b c).isOk = true := by
  have h1 := makeDecimal_of_den4 a ha ha4
  have h2 := makeDecimal_of_den4 b hb hb4
  have h3 := makeDecimal_of_den4 c hc hc4
  have hsum' : (a * 10 ^ 4).num + (b * 10 ^ 4).num + (c * 10 ^ 4).num =
      10 ^ 6 := by
    have hq : ((a * 10 ^ 4).num : ℚ) + (b * 10 ^ 4).num + (c * 10 ^ 4).num =
        ((10 ^ 6 : ℤ) : ℚ) := by
      rw [(Rat.den_eq_one_iff _).mp ha4, (Rat.den_eq_one_iff _).mp hb4,
        (Rat.den_eq_one_iff _).mp hc4]
      push_cast
      linear_combination (10 ^ 4 : ℚ) * hsum
    exact_mod_cast hq
  have heq : (a * 10 ^ 4).num * 10 ^ 14 + (b * 10 ^ 4).num * 10 ^ 14 +
      (c * 10 ^ 4).num * 10 ^ 14 = 100 * 10 ^ 18 := by
    have hfact : (a * 10 ^ 4).num * 10 ^ 14 + (b * 10 ^ 4).num * 10 ^ 14 +
        (c * 10 ^ 4).num * 10 ^ 14 =
        ((a * 10 ^ 4).num + (b * 10 ^ 4).num + (c * 10 ^ 4).num) * 10 ^ 14 := by
      ring
    rw [hfact, hsum']
    norm_num
  have hv : validateBidShares ⟨(a * 10 ^ 4).num * 10 ^ 14⟩
      ⟨(b * 10 ^ 4).num * 10 ^ 14⟩ ⟨(c * 10 ^ 4).num * 10 ^ 14⟩ = .ok () := by
    exact if_pos heq
  rw [constructBidShares, h1, h2, h3]
  dsimp only
  rw [hv]
  rfl

/-- Witness for the amended C2 at the test fixture split
`33.3333 / 33.3333 / 33.3334`. -/
theorem constructBidShares_ok_of_4dp_sum100_witness :
    (constructBidShares (333333 / 10000) (333333 / 10000)
      (333334 / 10000)).isOk = true := by
  refine constructBidShares_ok_of_4dp_sum100 _ _ _ (by norm_num) (by norm_num)
    (by norm_num) (den4_of_mul_eq_int _ 333333 (by norm_num))
    (den4_of_mul_eq_int _ 333333 (by norm_num))
    (den4_of_mul_eq_int _ 333334 (by norm_num)) (by norm_num)

/-- C3 counterexample: at the double-representable input `2^-14`, the
pipeline's 4-decimal reduction rounds up to `0.0001` (scaled value `10^14`)
where truncation would discard to `0` — the conversion rounds to nearest,
it does not truncate. -/
theorem makeDecimal_not_truncation :
    makeDecimal (1 / 16384) = .ok ⟨1 * 10 ^ 14⟩ ∧
    Decimal.new (specTruncate4 (1 / 16384)) = .ok ⟨0 * 10 ^ 14⟩ ∧
    makeDecimal (1 / 16384) ≠ Decimal.new (specTruncate4 (1 / 16384)) := by
  have h1 : makeDecimal (1 / 16384) = .ok ⟨1 * 10 ^ 14⟩ := by
    rw [makeDecimal_eq_round_half_up _ (by norm_num)]
    norm_num
  have htr : specTruncate4 (1 / 16384) = ((0 : ℤ) : ℚ) / 10 ^ 4 := by
    rw [specTruncate4]
    norm_num
  have h2 : Decimal.new (specTruncate4 (1 / 16384)) = .ok ⟨0 * 10 ^ 14⟩ := by
    rw [htr, decimal_new_int_div_ten4 0 le_rfl]
  refine ⟨h1, h2, ?_⟩
  rw [h1, h2]
  intro hcontra
  simp at hcontra

/-- C3 (amended): the share conversion reduces the input to 4 fractional
digits by rounding to nearest (ties up, JS `toFixed`), not truncation,
before scaling by `10^18`. -/
theorem makeDecimal_rounds_half_up_4dp (q : ℚ) (hq : 0 ≤ q) :
    makeDecimal q = .ok ⟨⌊q * 10 ^ 4 + 1 / 2⌋ * 10 ^ 14⟩ :=
  makeDecimal_eq_round_half_up q hq

/-- Witness for the amended C3: `3/8192 ≈ 0.000366` rounds up to `0.0004`. -/
theorem makeDecimal_rounds_half_up_4dp_witness :
    makeDecimal (3 / 8192) = .ok ⟨4 * 10 ^ 14⟩ := by
  have h := makeDecimal_rounds_half_up_4dp (3 / 8192) (by norm_num)
  norm_num at h ⊢
  exact h

/-- The anchored literal matcher accepts exactly the strings extending the
pattern. -/
theorem litMatch_iff_append (p : List Char) :
    ∀ s, litMatch p s = true ↔ ∃ t, s = p ++ t := by
  induction p with
  | nil =>
    intro s
    simp [litMatch]
  | cons a ps ih =>
    intro s
    cases s with
    | nil =>
      simp [litMatch]
    | cons c cs =>
      simp only [litMatch, Bool.and_eq_true, beq_iff_eq, ih, List.cons_append,
        List.cons.injEq]
      constructor
      · rintro ⟨rfl, t, rfl⟩
        exact ⟨t, rfl, rfl⟩
      · rintro ⟨t, rfl, rfl⟩
        exact ⟨rfl, t, rfl⟩

/-- C6: `validateURI` succeeds exactly on strings beginning with the literal
`https://`; in particular `http://example.com` is rejected with the
insecure-URI message. -/
theorem validateURI_ok_iff_https (uri : String) :
    (validateURI uri = .ok () ↔ ∃ rest : String, uri = "https://" ++ rest) ∧
    validateURI "https://example.com" = .ok () ∧
    validateURI "http://example.com" =
      .error "Invariant failed: http://example.com must begin with `https://`" := by
  refine ⟨?_, by decide, by decide⟩
  constructor
  · intro h
    have hm : litMatch "https://".data uri.data = true := by
      by_contra hm
      simp only [Bool.not_eq_true] at hm
      simp [validateURI, hm] at h
    obtain ⟨t, ht⟩ := (litMatch_iff_append _ _).mp hm
    refine ⟨String.mk t, String.ext ?_⟩
    rw [ht]
    simp [String.data_append]
  · rintro ⟨rest, rfl⟩
    have hm : litMatch "https://".data ("https://" ++ rest).data = true :=
      (litMatch_iff_append _ _).mpr ⟨rest.data, by simp [String.data_append]⟩
    rw [validateURI, if_pos hm]

/-- Hex digits encode as hex-class characters. -/
theorem isHexDigit_hexDigitChar (n : ℕ) (h : n < 16) :
    isHexDigit (hexDigitChar n) = true := by
  interval_cases n <;> decide

/-- The hex encoding of a byte list contains only hex-class characters. -/
theorem bytesToHexChars_all_hex (bs : List Byte) :
    (bytesToHexChars bs).all isHexDigit = true := by
  induction bs with
  | nil => rfl
  | cons b rest ih =>
    have hb := b.isLt
    have h1 : isHexDigit (hexDigitChar (b.val / 16)) = true :=
      isHexDigit_hexDigitChar _ (by omega)
    have h2 : isHexDigit (hexDigitChar (b.val % 16)) = true :=
      isHexDigit_hexDigitChar _ (by omega)
    simp [bytesToHexChars, byteToHexChars, h1, h2] at ih ⊢
    exact ih

/-- The hex encoding of a byte list has two characters per byte. -/
theorem bytesToHexChars_length (bs : List Byte) :
    (bytesToHexChars bs).length = 2 * bs.length := by
  induction bs with
  | nil => rfl
  | cons b rest ih =>
    simp [bytesToHexChars, byteToHexChars] at ih ⊢
    omega

/-- The hexlification of a byte array is a valid `0x` hex string. -/
theorem isHexString_hexlifyBytes (bs : List Byte) :
    isHexString (hexlifyBytes bs) = true := by
  simp only [isHexString, hexlifyBytes]
  exact bytesToHexChars_all_hex bs

/-- `hexDataLength` measures a hexlified byte array exactly. -/
theorem hexDataLength_hexlifyBytes (bs : List Byte) :
    hexDataLength (hexlifyBytes bs) = some bs.length := by
  have hall := isHexString_hexlifyBytes bs
  have hlen : (hexlifyBytes bs).data.length = 2 + 2 * bs.length := by
    simp [hexlifyBytes, bytesToHexChars_length]
    omega
  have hmod : (2 + 2 * bs.length) % 2 = 0 := by omega
  simp [hexDataLength, hall, hlen, hmod]

/-- The string-side acceptance condition of `validateBytes32` holds exactly
for valid hex strings with 64 hex digits (66 characters in all). -/
theorem bytes32_hex_cond_iff (s : String) :
    (isHexString s && hexDataLength s == some 32) = true ↔
      (isHexString s = true ∧ s.data.length = 66) := by
  simp only [Bool.and_eq_true, beq_iff_eq]
  constructor
  · rintro ⟨hx, hdl⟩
    rw [hexDataLength, hx] at hdl
    simp only [Bool.true_and] at hdl
    refine ⟨hx, ?_⟩
    split at hdl
    · next hcond =>
      simp only [Option.some.injEq] at hdl
      simp only [beq_iff_eq] at hcond
      omega
    · exact absurd hdl (by simp)
  · rintro ⟨hx, h66⟩
    refine ⟨hx, ?_⟩
    rw [hexDataLength, hx]
    simp [h66]

/-- C7: `validateBytes32` succeeds exactly on values denoting 32 bytes —
for raw byte arrays, length 32; for strings, a valid `0x` hex string of 64
hex digits; 31- and 33-byte inputs are rejected. -/
theorem validateBytes32_ok_iff_32_bytes (s : String) (bs : List Byte) :
    (validateBytes32 (.bytes bs) = .ok () ↔ bs.length = 32) ∧
    (validateBytes32 (.hex s) = .ok () ↔
      (isHexString s = true ∧ s.data.length = 66)) ∧
    validateBytes32 (.bytes (List.replicate 31 0)) =
      .error "Invariant failed: value is not a length 32 byte array" ∧
    validateBytes32 (.bytes (List.replicate 33 0)) =
      .error "Invariant failed: value is not a length 32 byte array" := by
  refine ⟨?_, ?_, by decide, by decide⟩
  · rw [show validateBytes32 (.bytes bs) =
        (if hexDataLength (hexlifyBytes bs) == some 32 then .ok ()
         else .error "Invariant failed: value is not a length 32 byte array")
      from rfl, hexDataLength_hexlifyBytes]
    constructor
    · intro h
      by_contra hne
      simp [hne] at h
    · intro h
      simp [h]
  · constructor
    · intro h
      by_contra hnc
      have hf : (isHexString s && hexDataLength s == some 32) = false := by
        rcases Bool.eq_false_or_eq_true
          (isHexString s && hexDataLength s == some 32) with ht | hf
        · exact absurd ((bytes32_hex_cond_iff s).mp ht) hnc
        · exact hf
      simp [validateBytes32, hf] at h
    · intro hc
      have ht := (bytes32_hex_cond_iff s).mpr hc
      simp [validateBytes32, ht]

/-- JavaScript whitespace characters are not hex digits. -/
theorem ws_not_hex (c : Char) (h : isJsWhitespace c = true) :
    isHexDigit c = false := by
  simp only [isJsWhitespace, Bool.or_eq_true, beq_iff_eq] at h
  rcases h with (((((rfl | rfl) | rfl) | rfl) | rfl) | rfl) | rfl <;> decide

/-- `sjcl`'s strip step leaves a pure hex-digit string unchanged. -/
theorem sjclStrip_of_hex (l : List Char) (h : l.all isHexDigit = true) :
    sjclStrip l = l := by
  induction l with
  | nil => rfl
  | cons c1 tail ih =>
    simp only [List.all_cons, Bool.and_eq_true] at h
    obtain ⟨hc1, htail⟩ := h
    have hws1 : isJsWhitespace c1 = false := by
      rcases Bool.eq_false_or_eq_true (isJsWhitespace c1) with hw | hw
      · rw [ws_not_hex c1 hw] at hc1
        exact absurd hc1 (by simp)
      · exact hw
    cases tail with
    | nil =>
      simp [sjclStrip, hws1]
    | cons c2 rest =>
      have hc2 : isHexDigit c2 = true := by
        simp only [List.all_cons, Bool.and_eq_true] at htail
        exact htail.1
      have hx2 : (c2 == 'x') = false := by
        rcases Bool.eq_false_or_eq_true (c2 == 'x') with hw | hw
        · rw [beq_iff_eq] at hw
          subst hw
          exact absurd hc2 (by decide)
        · exact hw
      rw [sjclStrip, if_neg (by simp [hws1]), if_neg (by simp [hx2])]
      rw [ih htail]

/-- Stripping removes a leading `0x` marker. -/
theorem sjclStrip_cons_0x (l : List Char) :
    sjclStrip ('0' :: 'x' :: l) = sjclStrip l := by
  rw [sjclStrip, if_neg (by decide), if_pos (by decide)]

/-- `sjcl.codec.hex.toBits` reads the hexlified byte array and the bare hex
encoding to the same nibbles. -/
theorem hexToBits_hexlifyBytes (bs : List Byte) :
    hexToBits (hexlifyBytes bs) =
      hexToBits (String.mk (bytesToHexChars bs)) := by
  simp only [hexToBits, hexlifyBytes]
  rw [sjclStrip_cons_0x]

/-- Eight characters per digest word. -/
theorem hashToHexChars_length (ws : List ℕ) :
    (hashToHexChars ws).length = 8 * ws.length := by
  induction ws with
  | nil => rfl
  | cons w rest ih =>
    simp [hashToHexChars, wordToHexChars] at ih ⊢
    omega

/-- `hexDigitChar` of a nibble value is a lower-case hex character. -/
theorem isLowerHexDigit_hexDigitChar (n : ℕ) (h : n < 16) :
    isLowerHexDigit (hexDigitChar n) = true := by
  interval_cases n <;> decide

/-- The hex rendering of a digest word is all lower-case hex. -/
theorem wordToHexChars_all_lower (w : ℕ) :
    (wordToHexChars w).all isLowerHexDigit = true := by
  simp only [wordToHexChars, List.all_cons, List.all_nil, Bool.and_eq_true]
  refine ⟨?_, ?_, ?_, ?_, ?_, ?_, ?_, ?_, trivial⟩ <;>
    exact isLowerHexDigit_hexDigitChar _ (by omega)

/-- The hex rendering of the digest is all lower-case hex. -/
theorem hashToHexChars_all_lower (ws : List ℕ) :
    (hashToHexChars ws).all isLowerHexDigit = true := by
  induction ws with
  | nil => rfl
  | cons w rest ih =>
    simp only [hashToHexChars, List.flatMap_cons, List.all_append,
      Bool.and_eq_true] at ih ⊢
    exact ⟨wordToHexChars_all_lower w, ih⟩

/-- The digest is always eight words. -/
theorem sha256Words_length (msg : List Nibble) :
    (sha256Words msg).length = 8 := rfl

/-- C9: `sha256FromHexString` on the `0x`-prefixed hex encoding of a byte
buffer returns exactly `sha256FromBuffer` of the buffer, and the digest
string is `0x` followed by 64 lower-case hex characters. -/
theorem sha256_entry_points_agree (bs : List Byte) :
    sha256FromHexString (hexlifyBytes bs) = .ok (sha256FromBuffer bs) ∧
    ∃ ds : List Char, (sha256FromBuffer bs).data = '0' :: 'x' :: ds ∧
      ds.length = 64 ∧ ds.all isLowerHexDigit = true := by
  constructor
  · rw [sha256FromHexString, if_pos (isHexString_hexlifyBytes bs),
      hexToBits_hexlifyBytes]
    rfl
  · refine ⟨hashToHexChars (sha256Words
      (hexToBits (String.mk (bytesToHexChars bs)))), ?_, ?_, ?_⟩
    · simp [sha256FromBuffer, String.data_append]
    · rw [hashToHexChars_length, sha256Words_length]
    · exact hashToHexChars_all_lower _

/-- C4: `isURIHashVerified` has exactly three outcomes — it succeeds with a
boolean exactly when the URI is secure, the fetch settled with a body, and
the expected hash normalizes; the boolean is `true` exactly on digest
match and `false` exactly on digest mismatch; otherwise the rejection
propagates. -/
theorem isURIHashVerified_trichotomy (uri : String) (expectedHash : BytesLike)
    (fetchResult : Except String (List Byte)) :
    ((isURIHashVerified uri expectedHash fetchResult).isOk = true ↔
      (validateURI uri = .ok () ∧ fetchResult.isOk = true ∧
        (hexlify expectedHash).isOk = true)) ∧
    (isURIHashVerified uri expectedHash fetchResult = .ok true ↔
      (validateURI uri = .ok () ∧ ∃ data n, fetchResult = .ok data ∧
        hexlify expectedHash = .ok n ∧ sha256FromBuffer data = n)) ∧
    (isURIHashVerified uri expectedHash fetchResult = .ok false ↔
      (validateURI uri = .ok () ∧ ∃ data n, fetchResult = .ok data ∧
        hexlify expectedHash = .ok n ∧ sha256FromBuffer data ≠ n)) := by
  cases hv : validateURI uri with
  | error e =>
    simp [isURIHashVerified, hv, Except.isOk, Except.toBool]
  | ok u =>
    cases u
    cases hf : fetchResult with
    | error e =>
      simp [isURIHashVerified, hv, hf, Except.isOk, Except.toBool]
    | ok data =>
      cases hh : hexlify expectedHash with
      | error e =>
        simp [isURIHashVerified, hv, hf, hh, Except.isOk, Except.toBool]
      | ok n =>
        simp [isURIHashVerified, hv, hf, hh, Except.isOk, Except.toBool,
          beq_iff_eq, beq_eq_false_iff_ne]
/-- C5 counterexample: when the token-URI fetch rejects (here: times out),
the code fetches only the token URI — the metadata fetch is never issued,
because `isItemDataVerified` awaits the first verification before starting
the second; the spec-modelled concurrent verifier issues both. -/
theorem isItemDataVerified_not_concurrent :
    isItemDataVerified itemDataEx fetchEx =
      (.error "timeout of 10ms exceeded", ["https://a.example/content"]) ∧
    (verifyContentRecordSpec itemDataEx fetchEx).2 =
      ["https://a.example/content", "https://a.example/meta"] ∧
    (isItemDataVerified itemDataEx fetchEx).2 ≠
      (verifyContentRecordSpec itemDataEx fetchEx).2 := by
  refine ⟨by decide, by decide, by decide⟩

/-- C5 (amended): `isItemDataVerified` and `isLandDataVerified` return the
logical AND of the two `fetchAndVerify` results when both settle
successfully, but run them sequentially: the metadata pair is issued only
after the token pair settles, and a rejection of the token pair rejects
the whole call with only the token fetch issued. -/
theorem contentRecord_verified_sequential_and (itemData : ItemData)
    (landData : LandData) (fetch : String → Except String (List Byte)) :
    (∀ b1 t1 b2 t2,
      isURIHashVerifiedT itemData.tokenURI itemData.contentHash fetch =
        (.ok b1, t1) →
      isURIHashVerifiedT itemData.metadataURI itemData.metadataHash fetch =
        (.ok b2, t2) →
      isItemDataVerified itemData fetch = (.ok (b1 && b2), t1 ++ t2)) ∧
    (∀ e t1,
      isURIHashVerifiedT itemData.tokenURI itemData.contentHash fetch =
        (.error e, t1) →
      isItemDataVerified itemData fetch = (.error e, t1)) ∧
    (∀ b1 t1 b2 t2,
      isURIHashVerifiedT landData.tokenURI landData.contentHash fetch =
        (.ok b1, t1) →
      isURIHashVerifiedT landData.metadataURI landData.metadataHash fetch =
        (.ok b2, t2) →
      isLandDataVerified landData fetch = (.ok (b1 && b2), t1 ++ t2)) ∧
    (∀ e t1,
      isURIHashVerifiedT landData.tokenURI landData.contentHash fetch =
        (.error e, t1) →
      isLandDataVerified landData fetch = (.error e, t1)) := by
  refine ⟨?_, ?_, ?_, ?_⟩
  · intro b1 t1 b2 t2 h1 h2
    simp only [isItemDataVerified, h1, h2]
  · intro e t1 h1
    simp only [isItemDataVerified, h1]
  · intro b1 t1 b2 t2 h1 h2
    simp only [isLandDataVerified, h1, h2]
  · intro e t1 h1
    simp only [isLandDataVerified, h1]

set_option maxRecDepth 10000 in
/-- Witness for the amended C5: with both URIs serving the empty body and
both declared hashes equal to its digest, the item verifier returns `true`
and both fetches are issued in order. -/
theorem contentRecord_verified_sequential_and_witness :
    isItemDataVerified itemDataOk fetchOk =
      (.ok true, ["https://ok.example/content", "https://ok.example/meta"]) := by
  have h := (contentRecord_verified_sequential_and itemDataOk
    ⟨"https://l.example/c", "https://l.example/m",
      .bytes (List.replicate 32 0), .bytes (List.replicate 32 0), 0, 0⟩
    fetchOk).1 true ["https://ok.example/content"]
    true ["https://ok.example/meta"] (by decide) (by decide)
  simpa using h

/-- C8: `MotifItem.isValidBid` reports a bid valid only if its
`sellOnShare` is at most `100 * 10^18` minus the current creator share; a
bid exceeding that bound is invalid; and `constructBid` imposes no such
bound — it succeeds for any non-negative `sellOnShare` whenever the three
addresses parse. -/
theorem isValidBid_sellOnShare_bound (isAmountValid : Bool)
    (currentBidShares : BidShares) (bid : Bid) :
    (MotifItem.isValidBid isAmountValid currentBidShares bid = true →
      bid.sellOnShare.value ≤
        100 * 10 ^ 18 - currentBidShares.creator.value) ∧
    (100 * 10 ^ 18 - currentBidShares.creator.value <
        bid.sellOnShare.value →
      MotifItem.isValidBid isAmountValid currentBidShares bid = false) ∧
    (∀ getAddr currency amount bidder recipient pc pb pr,
      getAddr currency = .ok pc → getAddr bidder = .ok pb →
      getAddr recipient = .ok pr →
      ∀ sellOnShare : ℚ, 0 ≤ sellOnShare →
        (constructBid getAddr currency amount bidder recipient
          sellOnShare).isOk = true) := by
  refine ⟨?_, ?_, ?_⟩
  · intro h
    simp only [MotifItem.isValidBid, Bool.and_eq_true, decide_eq_true_eq] at h
    exact h.2
  · intro hlt
    have hb : ¬(bid.sellOnShare.value ≤
        100 * 10 ^ 18 - currentBidShares.creator.value) := not_le.mpr hlt
    have hd : decide (bid.sellOnShare.value ≤
        100 * 10 ^ 18 - currentBidShares.creator.value) = false :=
      decide_eq_false hb
    simp [MotifItem.isValidBid, hd]
    intro _
    norm_num at hlt
    exact hlt
  · intro getAddr currency amount bidder recipient pc pb pr hc hb hr s hs
    have hmk := makeDecimal_eq_round_half_up s hs
    simp only [constructBid, validateAndParseAddress, hc, hb, hr, hmk]
    rfl

/-- Witness for C8: with a 10% creator share, a 95% sell-on share is
constructible but reported invalid (95e18 > 100e18 − 10e18). -/
theorem isValidBid_sellOnShare_bound_witness :
    MotifItem.isValidBid true
      ⟨⟨10 * 10 ^ 18⟩, ⟨80 * 10 ^ 18⟩, ⟨10 * 10 ^ 18⟩⟩
      ⟨"0xCurrency", 1, "0xBidder", "0xRecipient", ⟨95 * 10 ^ 18⟩⟩ = false ∧
    (constructBid (fun a => .ok a) "0xCurrency" 1 "0xBidder" "0xRecipient"
      95).isOk = true := by
  constructor
  · exact (isValidBid_sellOnShare_bound true
      ⟨⟨10 * 10 ^ 18⟩, ⟨80 * 10 ^ 18⟩, ⟨10 * 10 ^ 18⟩⟩
      ⟨"0xCurrency", 1, "0xBidder", "0xRecipient", ⟨95 * 10 ^ 18⟩⟩).2.1
      (by norm_num)
  · exact (isValidBid_sellOnShare_bound true
      ⟨⟨10 * 10 ^ 18⟩, ⟨80 * 10 ^ 18⟩, ⟨10 * 10 ^ 18⟩⟩
      ⟨"0xCurrency", 1, "0xBidder", "0xRecipient", ⟨95 * 10 ^ 18⟩⟩).2.2
      (fun a => .ok a) "0xCurrency" 1 "0xBidder" "0xRecipient"
      "0xCurrency" "0xBidder" "0xRecipient" rfl rfl rfl 95 (by norm_num)

/-- C10: on a read-only `MotifItem` (constructed from a `Provider`), every
state-changing method rejects with the `ensureNotReadOnly` message before
producing any contract call, while the read-only fetch methods remain
available. -/
theorem readOnly_blocks_write_methods (m : MotifItem)
    (h : m.readOnly = true) :
    (∀ itemId tokenURI,
      m.updateContentURI itemId tokenURI = .error ensureNotReadOnlyMsg) ∧
    (∀ itemId metadataURI,
      m.updateMetadataURI itemId metadataURI = .error ensureNotReadOnlyMsg) ∧
    (∀ itemData bidShares,
      m.mint itemData bidShares = .error ensureNotReadOnlyMsg) ∧
    (∀ itemData bidShares,
      m.mintMultiple itemData bidShares = .error ensureNotReadOnlyMsg) ∧
    (∀ creator itemData bidShares sig,
      m.mintWithSig creator itemData bidShares sig =
        .error ensureNotReadOnlyMsg) ∧
    (∀ itemId ask, m.setAsk itemId ask = .error ensureNotReadOnlyMsg) ∧
    (∀ itemId bid, m.setBid itemId bid = .error ensureNotReadOnlyMsg) ∧
    (∀ itemId, m.removeAsk itemId = .error ensureNotReadOnlyMsg) ∧
    (∀ itemId, m.removeBid itemId = .error ensureNotReadOnlyMsg) ∧
    (∀ itemId bid, m.acceptBid itemId bid = .error ensureNotReadOnlyMsg) ∧
    (∀ spender itemId sig,
      m.permit spender itemId sig = .error ensureNotReadOnlyMsg) ∧
    (∀ itemId, m.revokeApproval itemId = .error ensureNotReadOnlyMsg) ∧
    (∀ itemId, m.burn itemId = .error ensureNotReadOnlyMsg) ∧
    (∀ toAddr itemId, m.approve toAddr itemId = .error ensureNotReadOnlyMsg) ∧
    (∀ operator approved,
      m.setApprovalForAll operator approved = .error ensureNotReadOnlyMsg) ∧
    (∀ sender toAddr itemId,
      m.transferFrom sender toAddr itemId = .error ensureNotReadOnlyMsg) ∧
    (∀ sender toAddr itemId,
      m.safeTransferFrom sender toAddr itemId =
        .error ensureNotReadOnlyMsg) ∧
    (∀ itemId, (m.fetchContentHash itemId).isOk = true) ∧
    (∀ itemId, (m.fetchMetadataHash itemId).isOk = true) ∧
    (∀ itemId, (m.fetchContentURI itemId).isOk = true) ∧
    (∀ itemId, (m.fetchMetadataURI itemId).isOk = true) := by
  have he : ensureNotReadOnly m = .error ensureNotReadOnlyMsg := by
    simp [ensureNotReadOnly, h]
  refine ⟨fun _ _ => by simp [MotifItem.updateContentURI, he],
    fun _ _ => by simp [MotifItem.updateMetadataURI, he],
    fun _ _ => by simp [MotifItem.mint, he],
    fun _ _ => by simp [MotifItem.mintMultiple, he],
    fun _ _ _ _ => by simp [MotifItem.mintWithSig, he],
    fun _ _ => by simp [MotifItem.setAsk, he],
    fun _ _ => by simp [MotifItem.setBid, he],
    fun _ => by simp [MotifItem.removeAsk, he],
    fun _ => by simp [MotifItem.removeBid, he],
    fun _ _ => by simp [MotifItem.acceptBid, he],
    fun _ _ _ => by simp [MotifItem.permit, he],
    fun _ => by simp [MotifItem.revokeApproval, he],
    fun _ => by simp [MotifItem.burn, he],
    fun _ _ => by simp [MotifItem.approve, he],
    fun _ _ => by simp [MotifItem.setApprovalForAll, he],
    fun _ _ _ => by simp [MotifItem.transferFrom, he],
    fun _ _ _ => by simp [MotifItem.safeTransferFrom, he],
    fun _ => rfl, fun _ => rfl, fun _ => rfl, fun _ => rfl⟩

/-- Witness for C10 at a concrete read-only instance: `mint` (with
otherwise valid arguments) and `setAsk` reject with the read-only message,
and `fetchContentHash` stays available. -/
theorem readOnly_blocks_write_methods_witness :
    (MotifItem.mk true).mint
      ⟨"https://c.example", "https://m.example",
        .bytes (List.replicate 32 0), .bytes (List.replicate 32 0)⟩
      ⟨⟨100 * 10 ^ 18⟩, ⟨0⟩, ⟨0⟩⟩ = .error ensureNotReadOnlyMsg ∧
    (MotifItem.mk true).setAsk 1 ⟨"0xCurrency", 5⟩ =
      .error ensureNotReadOnlyMsg ∧
    ((MotifItem.mk true).fetchContentHash 1).isOk = true := by
  obtain ⟨h1, h2, h3, h4, h5, h6, h7, h8, h9, h10, h11, h12, h13, h14, h15,
    h16, h17, h18, h19, h20, h21⟩ :=
    readOnly_blocks_write_methods (MotifItem.mk true) rfl
  exact ⟨h3 _ _, h6 _ _, h18 _⟩
